import Mathlib

/-!
Verification of `src/phoenix/datasets/evaluators/llm_evaluators.py`.

Strings are modelled as `List Char` (the repository only ever handles ASCII
prompt text).  Python exceptions are modelled with `Except PyError`; the
model client's two generation entry points (`_generate` / `_async_generate`)
are fields of `LLMBaseModel`, and each evaluator's `evaluate`/`async_evaluate`
additionally reports how many times it invoked the model, so that "the model
is never called" is an observable fact of the embedding.
-/

set_option maxRecDepth 100000

namespace Phoenix

/-- Word characters of the regex class `\w` over ASCII text: letters, digits
and the underscore.  (`_parse_label_from_explanation` splits on
`(\W*label\W*)`.) -/
def isWordChar (c : Char) : Bool := c.isAlphanum || c == '_'

/-- Complement of `isWordChar`: the regex class `\W`. -/
def notWord (c : Char) : Bool := !isWordChar c

/-- ASCII whitespace stripped by Python's `str.strip()`. -/
def isSpaceChar (c : Char) : Bool :=
  c == ' ' || c == '\t' || c == '\n' || c == '\r' || c == '\x0b' || c == '\x0c'

/-- Python `str.strip()`: drop whitespace from both ends. -/
def pyStrip (s : List Char) : List Char :=
  ((s.dropWhile isSpaceChar).reverse.dropWhile isSpaceChar).reverse

/-- Python `str.lower()` over ASCII text. -/
def lowerStr (s : List Char) : List Char := s.map Char.toLower

/-- Case-insensitive comparison of one character against the two casings of a
letter, as `re.IGNORECASE` matches a literal letter. -/
def ciChar (c lo up : Char) : Bool := c == lo || c == up

/-- Does the list start with the literal `label`, case-insensitively?  This is
the literal part of the delimiter pattern `(\W*label\W*)`. -/
def ciStartsWithLabel : List Char → Bool
  | c1 :: c2 :: c3 :: c4 :: c5 :: _ =>
    ciChar c1 'l' 'L' && ciChar c2 'a' 'A' && ciChar c3 'b' 'B' &&
      ciChar c4 'e' 'E' && ciChar c5 'l' 'L'
  | _ => false

/-- Anchored match of the delimiter `(\W*label\W*)` at the head of `s`.
The leading greedy `\W*` must take the whole maximal non-word run (the match
can only continue with the word character `l`/`L`), then the literal `label`,
then the trailing greedy `\W*` takes the next maximal non-word run.  Returns
the captured delimiter and the remaining suffix. -/
def tryDelimAt (s : List Char) : Option (List Char × List Char) :=
  let run1 := s.takeWhile notWord
  let t := s.dropWhile notWord
  if ciStartsWithLabel t then
    let afterL := t.drop 5
    some (run1 ++ t.take 5 ++ afterL.takeWhile notWord, afterL.dropWhile notWord)
  else none

/-- Prepend a character to the first part of a split (the text scanned before
any delimiter match grows one character at a time). -/
def consHead (c : Char) : List (List Char) → List (List Char)
  | [] => [[c]]
  | p :: ps => (c :: p) :: ps

/-- `re.split(r"(\W*label\W*)", s, flags=re.IGNORECASE)`: scan left to right;
at each position either an anchored delimiter match is consumed (the captured
delimiter becomes its own part, as the pattern is one capturing group) or the
scan advances one character.  `fuel` only bounds the recursion; one unit per
consumed character (a delimiter consumes at least five) always suffices, so
`splitOnLabel` passes `s.length`. -/
def splitOnLabelF : Nat → List Char → List (List Char)
  | 0, s => [s]
  | fuel + 1, s =>
    match tryDelimAt s with
    | some (d, rest) => [] :: d :: splitOnLabelF fuel rest
    | none =>
      match s with
      | [] => [[]]
      | c :: cs => consHead c (splitOnLabelF fuel cs)

/-- The delimiter split of `_parse_label_from_explanation`. -/
def splitOnLabel (s : List Char) : List (List Char) := splitOnLabelF s.length s

/-- `re.match(r"(\W*label\W*)", part, flags=re.IGNORECASE)` viewed as a
Boolean: an anchored prefix match succeeds exactly when the literal `label`
follows the maximal leading non-word run. -/
def matchesDelimHead (p : List Char) : Bool :=
  ciStartsWithLabel (p.dropWhile notWord)

/-- The backward scan of `_parse_label_from_explanation`: walking the part
list from its end, find the first adjacent pair whose left part is itself a
delimiter match and return the right part, stripped.  The argument is the
reversed part list. -/
def scanBack : List (List Char) → Option (List Char)
  | b :: a :: rest =>
    if matchesDelimHead a then some (pyStrip b) else scanBack (a :: rest)
  | _ => none

/-- `_parse_label_from_explanation(raw_string)`: split on the delimiter; with
more than one part, return the stripped part after the last delimiter match
found scanning backward; otherwise (and if the backward scan falls through)
return the raw string unchanged. -/
def parseLabelFromExplanation (rawString : List Char) : List Char :=
  let parts := splitOnLabel rawString
  if 1 < parts.length then
    match scanBack parts.reverse with
    | some r => r
    | none => rawString
  else rawString

/-- Does `pat` occur as a contiguous substring of the second list? -/
def containsSub (pat : List Char) : List Char → Bool
  | [] => pat.isEmpty
  | c :: cs => pat.isPrefixOf (c :: cs) || containsSub pat cs

/-- Modelled from the spec: `snap_to_rail` is imported from
`phoenix.evals.utils`, which is not under `src/`.  Spec §4.4 step 4: a
case-insensitive exact match against the rail short-circuits; otherwise a
containment rule looks for a rail value appearing within the candidate, with
ambiguity (or no rail matching) resulting in the label "no match".  This
model is only used to instantiate theorems whose hypotheses speak about the
snapping function's outcome; the evaluators themselves take the snapping
function as a parameter. -/
def snapToRail (rawString : List Char) (rails : List (List Char)) : List Char :=
  let cand := lowerStr rawString
  match rails.find? (fun r => cand == lowerStr r) with
  | some r => lowerStr r
  | none =>
    match rails.filter (fun r => containsSub (lowerStr r) cand) with
    | [r] => lowerStr r
    | _ => "no match".toList

/-- The two-character JSON string escapes and their decoded values. -/
def jsonEscapeTable : List (Char × Char) :=
  [('"', '"'), ('\\', '\\'), ('/', '/'), ('n', '\n'),
    ('t', '\t'), ('r', '\r'), ('b', '\x08'), ('f', '\x0c')]

/-- Decoded value of a single JSON escape character (`\uXXXX` escapes are not
modelled; an input using them is treated as not decodable, hence unchanged). -/
def jsonUnescape (c : Char) : Option Char :=
  (jsonEscapeTable.find? (fun p => p.1 == c)).map (fun p => p.2)

/-- Body of a JSON string literal after its opening quote: the decoded
content when the closing quote is the final character, else `none`. -/
def jsonStringBody : List Char → Option (List Char)
  | [] => none
  | '"' :: rest => if rest.isEmpty then some [] else none
  | '\\' :: rest =>
    match rest with
    | [] => none
    | e :: rest2 =>
      match jsonUnescape e with
      | some c => (jsonStringBody rest2).map (fun t => c :: t)
      | none => none
  | c :: rest => (jsonStringBody rest).map (fun t => c :: t)

/-- Modelled from the spec: `_unwrap_json` is imported from
`phoenix.datasets.evaluators.utils`, which is not under `src/`.  Spec
glossary: decode a value that may be a JSON-encoded string one level deep,
returning the inner value if so, else returning the value unchanged. -/
def unwrapJson (s : List Char) : List Char :=
  match s with
  | '"' :: rest =>
    match jsonStringBody rest with
    | some inner => inner
    | none => s
  | _ => s

/-- Python exceptions the evaluators can raise. -/
inductive PyError where
  | assertionFailed
  | keyError (name : List Char)
  | valueError
  | runtimeError (msg : List Char)
deriving DecidableEq, Repr

/-- One piece of a parsed `str.format` template: literal text or a named
replacement field. -/
inductive TemplateSeg where
  | litSeg (s : List Char)
  | fieldSeg (name : List Char)
deriving DecidableEq, Repr

/-- Close the pending literal accumulator (kept reversed) into the segment
list (also kept reversed); an empty literal produces no segment. -/
def pushLit (acc : List Char) (segs : List TemplateSeg) : List TemplateSeg :=
  if acc.isEmpty then segs else .litSeg acc.reverse :: segs

/-- Scanner for `str.format` templates.  The Bool is true while inside a
replacement field; `acc` is the pending literal or field name (reversed),
`segs` the segments so far (reversed).  `{{`/`}}` escape to literal braces, a
lone `}` or an unterminated field is a `ValueError`, as in Python.  Format
specs and conversions inside a field (`:`/`!`) are not modelled — no template
of this file uses them. -/
def parseTemplateGo : List Char → Bool → List Char → List TemplateSeg →
    Except PyError (List TemplateSeg)
  | [], false, acc, segs => .ok (pushLit acc segs).reverse
  | [], true, _, _ => .error .valueError
  | '{' :: '{' :: rest, false, acc, segs => parseTemplateGo rest false ('{' :: acc) segs
  | '}' :: '}' :: rest, false, acc, segs => parseTemplateGo rest false ('}' :: acc) segs
  | '{' :: rest, false, acc, segs => parseTemplateGo rest true [] (pushLit acc segs)
  | '}' :: _, false, _, _ => .error .valueError
  | '}' :: rest, true, acc, segs =>
    parseTemplateGo rest false [] (.fieldSeg acc.reverse :: segs)
  | c :: rest, false, acc, segs => parseTemplateGo rest false (c :: acc) segs
  | c :: rest, true, acc, segs => parseTemplateGo rest true (c :: acc) segs

/-- Parse a `str.format` template into literal and field segments. -/
def parseTemplate (tmpl : List Char) : Except PyError (List TemplateSeg) :=
  parseTemplateGo tmpl false [] []

/-- Keyword-argument lookup for `str.format`. -/
def lookupArg (name : List Char) : List (List Char × List Char) → Option (List Char)
  | [] => none
  | (k, v) :: rest => if k == name then some v else lookupArg name rest

/-- Substitute the arguments into the parsed segments, left to right;
a field whose name is not among the arguments raises `KeyError`, and
substituted values are inserted verbatim (never rescanned), as in Python. -/
def renderSegs (args : List (List Char × List Char)) :
    List TemplateSeg → Except PyError (List Char)
  | [] => .ok []
  | .litSeg s :: rest =>
    match renderSegs args rest with
    | .error e => .error e
    | .ok t => .ok (s ++ t)
  | .fieldSeg n :: rest =>
    match lookupArg n args with
    | none => .error (.keyError n)
    | some v =>
      match renderSegs args rest with
      | .error e => .error e
      | .ok t => .ok (v ++ t)

/-- Python `template.format(**args)` with named fields. -/
def pyFormat (tmpl : List Char) (args : List (List Char × List Char)) :
    Except PyError (List Char) :=
  match parseTemplate tmpl with
  | .error e => .error e
  | .ok segs => renderSegs args segs

/-- `LLMCriteriaEvaluator._base_template` (the adjacent Python string
literals concatenated). -/
def baseTemplateStr : String :=
  "Determine if the following text is {criteria}. {description}" ++
  "First, explain step-by-step why you think the text is or is not {criteria}. Then provide " ++
  "a single word label; 'true' if the text is {criteria} or 'false' if the text is not " ++
  "{criteria}. Here is an example template for whether the text meets a criteria:\n\n" ++
  "CRITERIA: the text is '{criteria}'\n" ++
  "TEXT: *the provided text to evaluate*\n" ++
  "EXPLANATION: *a step by step explanation of your reasoning for whether the text meets " ++
  "the criteria*\n" ++
  "LABEL: *true or false*\n\n" ++
  "Follow this template for the following example:\n\n" ++
  "CRITERIA: the text is '{criteria}'\n" ++
  "TEXT: {text}\n" ++
  "EXPLANATION: "

/-- `LLMCriteriaEvaluator._description`. -/
def descriptionTemplateStr : String :=
  "In this context, '{criteria}' means the text '{description}'. "

/-- `LLMCriteriaEvaluator._format_base_template(criteria, description)`:
format `_description`, then format `_base_template` with the criteria, the
formatted description, and `"{text}"` for `text` (leaving the text field as a
placeholder). -/
def formatBaseTemplate (criteria description : List Char) : Except PyError (List Char) :=
  match pyFormat descriptionTemplateStr.toList
      [("criteria".toList, criteria), ("description".toList, description)] with
  | .error e => .error e
  | .ok formattedDescription =>
    pyFormat baseTemplateStr.toList
      [("criteria".toList, criteria), ("description".toList, formattedDescription),
        ("text".toList, "{text}".toList)]

/-- The external model client: its synchronous (`_generate`) and
asynchronous (`_async_generate`) text-generation entry points.  The
asynchronous one is modelled by the string it resolves to. -/
structure LLMBaseModel where
  generate : List Char → List Char
  asyncGenerate : List Char → List Char

/-- `EvaluationResult(score=..., explanation=..., metadata={})`; the score is
modelled as a rational (only 0.0 and 1.0 ever occur) and the metadata as an
association list. -/
structure EvaluationResult where
  score : Rat
  explanation : List Char
  metadata : List (List Char × List Char)
deriving DecidableEq, Repr

/-- `experiment_run.output`: the object carrying `.result`; the result value
is modelled by its string form (`str(...)` is applied to it at use sites). -/
structure TaskOutput where
  result : List Char
deriving DecidableEq, Repr

/-- `ExperimentRun`: the core only reads `output`, which is `None` or a
`TaskOutput`. -/
structure ExperimentRun where
  output : Option TaskOutput
deriving DecidableEq, Repr

/-- `Example`: the core only reads `input`, modelled by its string form. -/
structure Example where
  input : List Char
deriving DecidableEq, Repr

/-- `LLMCriteriaEvaluator`: bound model, criteria, description, the template
built at construction time, and a name. -/
structure LLMCriteriaEvaluator where
  model : LLMBaseModel
  criteria : List Char
  description : List Char
  template : Except PyError (List Char)
  name : List Char

/-- `LLMCriteriaEvaluator.__init__`: the only time the template is built. -/
def LLMCriteriaEvaluator.init (model : LLMBaseModel)
    (criteria description name : List Char) : LLMCriteriaEvaluator :=
  ⟨model, criteria, description, formatBaseTemplate criteria description, name⟩

/-- `LLMCriteriaEvaluator._format_eval_template(experiment_run)`: assert the
run output is present, unwrap the result, substitute it for `text`. -/
def LLMCriteriaEvaluator.formatEvalTemplate (ev : LLMCriteriaEvaluator)
    (experimentRun : ExperimentRun) : Except PyError (List Char) :=
  match experimentRun.output with
  | none => .error .assertionFailed
  | some out =>
    match ev.template with
    | .error e => .error e
    | .ok tmpl => pyFormat tmpl [("text".toList, unwrapJson out.result)]

/-- `LLMCriteriaEvaluator._parse_eval_output(unparsed_response)`.  The
snapping function `snap` stands for the external `snap_to_rail` collaborator
(`phoenix.evals.utils`, not under `src/`). -/
def LLMCriteriaEvaluator.parseEvalOutput
    (snap : List Char → List (List Char) → List Char)
    (unparsedResponse : List Char) : Except PyError EvaluationResult :=
  let rawLabel := parseLabelFromExplanation unparsedResponse
  let explanation := unparsedResponse
  let label := snap rawLabel ["true".toList, "false".toList]
  if label = "true".toList then
    .ok ⟨1, explanation, []⟩
  else if label = "false".toList then
    .ok ⟨0, explanation, []⟩
  else
    .error (.runtimeError ("Could not parse LLM evaluation: ".toList ++ unparsedResponse))

/-- `LLMCriteriaEvaluator.evaluate(example, exp_run)`.  The second component
counts invocations of the model's synchronous generation entry point. -/
def LLMCriteriaEvaluator.evaluate (ev : LLMCriteriaEvaluator)
    (snap : List Char → List (List Char) → List Char)
    (ex : Example) (expRun : ExperimentRun) :
    Except PyError EvaluationResult × Nat :=
  match ev.formatEvalTemplate expRun with
  | .error e => (.error e, 0)
  | .ok formattedTemplate =>
    (LLMCriteriaEvaluator.parseEvalOutput snap (ev.model.generate formattedTemplate), 1)

/-- `LLMCriteriaEvaluator.async_evaluate(example, exp_run)`: identical to
`evaluate` except that it awaits the asynchronous generation entry point.
The second component counts invocations of that entry point. -/
def LLMCriteriaEvaluator.asyncEvaluate (ev : LLMCriteriaEvaluator)
    (snap : List Char → List (List Char) → List Char)
    (ex : Example) (expRun : ExperimentRun) :
    Except PyError EvaluationResult × Nat :=
  match ev.formatEvalTemplate expRun with
  | .error e => (.error e, 0)
  | .ok formattedTemplate =>
    (LLMCriteriaEvaluator.parseEvalOutput snap (ev.model.asyncGenerate formattedTemplate), 1)

/-- The record backing the classes produced by `criteria_evaluator_factory`:
the fixed criteria, description, default name, and the template precomputed
once as a class attribute. -/
structure CriteriaEvaluatorClass where
  criteria : List Char
  description : List Char
  defaultName : List Char
  template : Except PyError (List Char)

/-- `criteria_evaluator_factory(class_name, criteria, description,
default_name)`. -/
def criteriaEvaluatorFactory (criteria description defaultName : List Char) :
    CriteriaEvaluatorClass :=
  ⟨criteria, description, defaultName, formatBaseTemplate criteria description⟩

/-- Constructing a factory-produced evaluator from a model handle alone: the
generated `__init__` calls `LLMCriteriaEvaluator.__init__` with the fixed
criteria/description and the default name. -/
def CriteriaEvaluatorClass.fromModel (cls : CriteriaEvaluatorClass)
    (model : LLMBaseModel) : LLMCriteriaEvaluator :=
  LLMCriteriaEvaluator.init model cls.criteria cls.description cls.defaultName

/-- `ConcisenessEvaluator`. -/
def ConcisenessEvaluator : CriteriaEvaluatorClass :=
  criteriaEvaluatorFactory "concise".toList
    "is just a few sentences and easy to follow".toList "Conciseness".toList

/-- `HelpfulnessEvaluator`. -/
def HelpfulnessEvaluator : CriteriaEvaluatorClass :=
  criteriaEvaluatorFactory "helpful".toList
    "provides useful information".toList "Helpfulness".toList

/-- `CoherenceEvaluator`. -/
def CoherenceEvaluator : CriteriaEvaluatorClass :=
  criteriaEvaluatorFactory "coherent".toList
    "is coherent, well-structured, and logically sound".toList "Coherence".toList

/-- `RelevanceEvaluator.template` (the adjacent Python string literals
concatenated); note its replacement fields are named `reference` and
`submission`. -/
def relevanceTemplate : String :=
  "Determine if the following response is relevant to the query. In this context, " ++
  "'relevance' means that the response directly addresses the core question or topic of the " ++
  "query. First, explain step-by-step why you think the text is or is not relevant. " ++
  "Then provide a single word label; 'true' if the text is relevant or 'false' if the text " ++
  "is not relevant. " ++
  "Here is an example template for your reponse:\n\n" ++
  "CRITERIA: the response is 'relevant' to the query\n" ++
  "QUERY: *text that contains a query*\n" ++
  "RESPONSE: *a response that may or may not be relevant to the query*\n" ++
  "EXPLANATION: *a step by step explanation of your reasoning for whether or not the " ++
  "response is relevant to the query*\n" ++
  "LABEL: *true or false*\n\n" ++
  "Follow this template for the following example:\n\n" ++
  "CRITERIA: the response is 'relevant' to the query\n" ++
  "QUERY: {reference}\n" ++
  "RESPONSE: {submission}\n" ++
  "EXPLANATION: "

/-- `RelevanceEvaluator`: bound model, name, and the two extraction
functions (which, like any Python callable, may raise). -/
structure RelevanceEvaluator where
  model : LLMBaseModel
  name : List Char
  getQuery : Example → ExperimentRun → Except PyError (List Char)
  getResponse : Example → ExperimentRun → Except PyError (List Char)

/-- `RelevanceEvaluator._default_get_query`: `str(example.input)`. -/
def defaultGetQuery (ex : Example) (_ : ExperimentRun) : Except PyError (List Char) :=
  .ok ex.input

/-- `RelevanceEvaluator._default_get_response`: assert the run output is
present, then `str(_unwrap_json(run.output.result))`. -/
def defaultGetResponse (_ : Example) (experimentRun : ExperimentRun) :
    Except PyError (List Char) :=
  match experimentRun.output with
  | none => .error .assertionFailed
  | some out => .ok (unwrapJson out.result)

/-- `RelevanceEvaluator.__init__(model, get_query=None, get_response=None,
name="RelevanceEvaluator")`: `None` extraction functions fall back to the
defaults. -/
def RelevanceEvaluator.init (model : LLMBaseModel)
    (getQuery getResponse : Option (Example → ExperimentRun → Except PyError (List Char)))
    (name : List Char) : RelevanceEvaluator :=
  ⟨model, name, getQuery.getD defaultGetQuery, getResponse.getD defaultGetResponse⟩

/-- `RelevanceEvaluator._format_eval_template(example, experiment_run)`:
assert the run output is present, call the two extraction functions, then
`self.template.format(query=..., response=...)`. -/
def RelevanceEvaluator.formatEvalTemplate (ev : RelevanceEvaluator) (ex : Example)
    (experimentRun : ExperimentRun) : Except PyError (List Char) :=
  match experimentRun.output with
  | none => .error .assertionFailed
  | some _ =>
    match ev.getQuery ex experimentRun with
    | .error e => .error e
    | .ok query =>
      match ev.getResponse ex experimentRun with
      | .error e => .error e
      | .ok response =>
        pyFormat relevanceTemplate.toList
          [("query".toList, query), ("response".toList, response)]

/-- `RelevanceEvaluator._parse_eval_output(unparsed_response)`: textually the
same as `LLMCriteriaEvaluator._parse_eval_output` (the source duplicates the
method). -/
def RelevanceEvaluator.parseEvalOutput
    (snap : List Char → List (List Char) → List Char)
    (unparsedResponse : List Char) : Except PyError EvaluationResult :=
  let rawLabel := parseLabelFromExplanation unparsedResponse
  let explanation := unparsedResponse
  let label := snap rawLabel ["true".toList, "false".toList]
  if label = "true".toList then
    .ok ⟨1, explanation, []⟩
  else if label = "false".toList then
    .ok ⟨0, explanation, []⟩
  else
    .error (.runtimeError ("Could not parse LLM evaluation: ".toList ++ unparsedResponse))

/-- `RelevanceEvaluator.evaluate(example, exp_run)`; the second component
counts invocations of the model's synchronous generation entry point. -/
def RelevanceEvaluator.evaluate (ev : RelevanceEvaluator)
    (snap : List Char → List (List Char) → List Char)
    (ex : Example) (expRun : ExperimentRun) :
    Except PyError EvaluationResult × Nat :=
  match ev.formatEvalTemplate ex expRun with
  | .error e => (.error e, 0)
  | .ok formattedTemplate =>
    (RelevanceEvaluator.parseEvalOutput snap (ev.model.generate formattedTemplate), 1)

/-- `RelevanceEvaluator.async_evaluate(example, exp_run)`. -/
def RelevanceEvaluator.asyncEvaluate (ev : RelevanceEvaluator)
    (snap : List Char → List (List Char) → List Char)
    (ex : Example) (expRun : ExperimentRun) :
    Except PyError EvaluationResult × Nat :=
  match ev.formatEvalTemplate ex expRun with
  | .error e => (.error e, 0)
  | .ok formattedTemplate =>
    (RelevanceEvaluator.parseEvalOutput snap (ev.model.asyncGenerate formattedTemplate), 1)

/-- Scanner extracting the names of the open replacement fields of a built
template string (the formalisation of "contains exactly one unresolved
placeholder"): the Bool is true inside a field, `acc` the pending name
(reversed).  Brace escapes are ignored — no input of interest contains
them. -/
def lpGo : List Char → Bool → List Char → List (List Char)
  | [], _, _ => []
  | ch :: cs, false, acc =>
    if ch == '{' then lpGo cs true [] else lpGo cs false acc
  | ch :: cs, true, acc =>
    if ch == '}' then acc.reverse :: lpGo cs false [] else lpGo cs true (ch :: acc)

/-- The names of the open replacement fields of a template string. -/
def listPlaceholders (s : List Char) : List (List Char) := lpGo s false []

/-- No brace occurs in the string (such criteria/description values pass
through `str.format` verbatim without creating or breaking fields). -/
def braceFree (s : List Char) : Bool :=
  s.all (fun c => !(c == '{') && !(c == '}'))

/-- The template payload of a build result (`[]` for an error). -/
def templateStrOf (r : Except PyError (List Char)) : List Char :=
  match r with
  | .ok t => t
  | .error _ => []

/-! ### Helper lemmas about the delimiter split -/

/-- Dropping a prefix by a predicate never lengthens a list. -/
theorem dropWhile_le_length (p : Char → Bool) (l : List Char) :
    (l.dropWhile p).length ≤ l.length := by
  induction l with
  | nil => exact Nat.le_refl _
  | cons c cs ih =>
    rw [List.dropWhile_cons]
    split
    · exact Nat.le_trans ih (Nat.le_succ _)
    · exact Nat.le_refl _

/-- Dropping by a predicate skips over a block that satisfies it wholly. -/
theorem dropWhile_append_of_all (p : Char → Bool) (xs ys : List Char)
    (h : ∀ c ∈ xs, p c = true) :
    (xs ++ ys).dropWhile p = ys.dropWhile p := by
  induction xs with
  | nil => rfl
  | cons c cs ih =>
    have hc : p c = true := h c (List.mem_cons_self c cs)
    rw [List.cons_append, List.dropWhile_cons, if_pos hc]
    exact ih (fun x hx => h x (List.mem_cons_of_mem c hx))

/-- A successful case-insensitive `label` check exposes the first five
characters. -/
theorem ciStartsWithLabel_eq :
    ∀ {t : List Char}, ciStartsWithLabel t = true →
      ∃ c1 c2 c3 c4 c5 rest, t = c1 :: c2 :: c3 :: c4 :: c5 :: rest ∧
        (ciChar c1 'l' 'L' && ciChar c2 'a' 'A' && ciChar c3 'b' 'B' &&
          ciChar c4 'e' 'E' && ciChar c5 'l' 'L') = true
  | c1 :: c2 :: c3 :: c4 :: c5 :: rest, h => ⟨c1, c2, c3, c4, c5, rest, rfl, h⟩
  | [], h => by simp [ciStartsWithLabel] at h
  | [_], h => by simp [ciStartsWithLabel] at h
  | [_, _], h => by simp [ciStartsWithLabel] at h
  | [_, _, _], h => by simp [ciStartsWithLabel] at h
  | [_, _, _, _], h => by simp [ciStartsWithLabel] at h

/-- A character matching `l` case-insensitively is a word character. -/
theorem isWordChar_of_ciL {c : Char} (h : ciChar c 'l' 'L' = true) :
    isWordChar c = true := by
  rcases Bool.or_eq_true _ _ |>.mp h with h1 | h1
  · rw [eq_of_beq h1]; decide
  · rw [eq_of_beq h1]; decide

/-- Unfolding of a successful anchored delimiter match. -/
theorem tryDelimAt_some {s d rest : List Char} (h : tryDelimAt s = some (d, rest)) :
    ciStartsWithLabel (s.dropWhile notWord) = true ∧
    d = s.takeWhile notWord ++ (s.dropWhile notWord).take 5 ++
        ((s.dropWhile notWord).drop 5).takeWhile notWord ∧
    rest = ((s.dropWhile notWord).drop 5).dropWhile notWord := by
  simp only [tryDelimAt] at h
  split at h
  next hc =>
    injection h with h
    rw [Prod.mk.injEq] at h
    exact ⟨hc, h.1.symm, h.2.symm⟩
  next hc => exact Option.noConfusion h

/-- A delimiter match consumes at least the five characters of `label`. -/
theorem tryDelimAt_rest_length {s d rest : List Char}
    (h : tryDelimAt s = some (d, rest)) : rest.length < s.length := by
  obtain ⟨hc, -, hrest⟩ := tryDelimAt_some h
  obtain ⟨c1, c2, c3, c4, c5, tr, ht, -⟩ := ciStartsWithLabel_eq hc
  subst hrest
  have h1 : ((s.dropWhile notWord).drop 5).length ≥
      (((s.dropWhile notWord).drop 5).dropWhile notWord).length :=
    dropWhile_le_length _ _
  have h2 : (s.dropWhile notWord).length ≤ s.length := dropWhile_le_length _ _
  rw [ht] at h1 h2 ⊢
  simp only [List.drop_succ_cons, List.drop_zero, List.length_cons] at h1 h2 ⊢
  omega

/-- The captured delimiter of a successful match is itself an anchored
delimiter match (`re.match` of the same pattern accepts it). -/
theorem tryDelimAt_matchesDelimHead {s d rest : List Char}
    (h : tryDelimAt s = some (d, rest)) : matchesDelimHead d = true := by
  obtain ⟨hc, hd, -⟩ := tryDelimAt_some h
  obtain ⟨c1, c2, c3, c4, c5, tr, ht, hci⟩ := ciStartsWithLabel_eq hc
  have hw1 : isWordChar c1 = true :=
    isWordChar_of_ciL (by
      have := hci
      simp only [Bool.and_eq_true] at this
      exact this.1.1.1.1)
  subst hd
  rw [ht]
  have htake : (c1 :: c2 :: c3 :: c4 :: c5 :: tr).take 5 = [c1, c2, c3, c4, c5] := rfl
  have hdrop : (c1 :: c2 :: c3 :: c4 :: c5 :: tr).drop 5 = tr := rfl
  rw [htake, hdrop]
  unfold matchesDelimHead
  rw [List.append_assoc]
  rw [dropWhile_append_of_all notWord _ _
    (fun x hx => by
      have := List.mem_takeWhile_imp hx
      exact this)]
  have : List.dropWhile notWord ([c1, c2, c3, c4, c5] ++ List.takeWhile notWord tr) =
      [c1, c2, c3, c4, c5] ++ List.takeWhile notWord tr := by
    rw [List.cons_append, List.dropWhile_cons, if_neg (by simp [notWord, hw1])]
  rw [this]
  exact hci

/-- `consHead` never produces the empty list. -/
theorem consHead_ne_nil (c : Char) (l : List (List Char)) : consHead c l ≠ [] := by
  cases l <;> simp [consHead]

/-- `consHead` keeps the number of parts of a nonempty list. -/
theorem consHead_length (c : Char) (l : List (List Char)) (h : l ≠ []) :
    (consHead c l).length = l.length := by
  cases l with
  | nil => exact absurd rfl h
  | cons p ps => rfl

/-- The split never returns an empty part list. -/
theorem splitOnLabelF_ne_nil : ∀ (fuel : Nat) (s : List Char), splitOnLabelF fuel s ≠ []
  | 0, s => by simp [splitOnLabelF]
  | fuel + 1, s => by
    simp only [splitOnLabelF]
    cases htry : tryDelimAt s with
    | some pr => simp
    | none =>
      cases s with
      | nil => simp
      | cons c cs => exact consHead_ne_nil c _

/-- Structure of a split with more than one part: it ends in a delimiter
part followed by one final text part, and starts with at least one part
before them. -/
theorem splitOnLabelF_structure :
    ∀ (fuel : Nat) (s : List Char), s.length ≤ fuel →
      1 < (splitOnLabelF fuel s).length →
      ∃ pre d t, splitOnLabelF fuel s = pre ++ [d, t] ∧ pre ≠ [] ∧
        matchesDelimHead d = true
  | 0, s, hle, hlen => by
    have hs : s = [] := List.length_eq_zero.mp (Nat.le_zero.mp hle)
    subst hs
    simp [splitOnLabelF] at hlen
  | fuel + 1, s, hle, hlen => by
    cases htry : tryDelimAt s with
    | some pr =>
      obtain ⟨d, rest⟩ := pr
      have heq : splitOnLabelF (fuel + 1) s = [] :: d :: splitOnLabelF fuel rest := by
        simp only [splitOnLabelF, htry]
      have hrecfuel : rest.length ≤ fuel := by
        have := tryDelimAt_rest_length htry
        omega
      by_cases hsub : 1 < (splitOnLabelF fuel rest).length
      · obtain ⟨pre, d', t', hs, hpre, hd'⟩ :=
          splitOnLabelF_structure fuel rest hrecfuel hsub
        refine ⟨[] :: d :: pre, d', t', ?_, by simp, hd'⟩
        rw [heq, hs]
        simp
      · have hne := splitOnLabelF_ne_nil fuel rest
        have hlen1 : (splitOnLabelF fuel rest).length = 1 := by
          have : 0 < (splitOnLabelF fuel rest).length := List.length_pos.mpr hne
          omega
        obtain ⟨t0, ht0⟩ := List.length_eq_one.mp hlen1
        refine ⟨[[]], d, t0, ?_, by simp, tryDelimAt_matchesDelimHead htry⟩
        rw [heq, ht0]
        rfl
    | none =>
      cases s with
      | nil =>
        have heq : splitOnLabelF (fuel + 1) ([] : List Char) = [[]] := by
          simp only [splitOnLabelF, htry]
        rw [heq] at hlen
        simp at hlen
      | cons c cs =>
        have heq : splitOnLabelF (fuel + 1) (c :: cs) =
            consHead c (splitOnLabelF fuel cs) := by
          simp only [splitOnLabelF, htry]
        have hcs : cs.length ≤ fuel := by
          simp only [List.length_cons] at hle
          omega
        have hne := splitOnLabelF_ne_nil fuel cs
        have hlen2 : 1 < (splitOnLabelF fuel cs).length := by
          rw [heq, consHead_length c _ hne] at hlen
          exact hlen
        obtain ⟨pre, d', t', hs, hpre, hd'⟩ :=
          splitOnLabelF_structure fuel cs hcs hlen2
        obtain ⟨p0, pre', hp⟩ := List.exists_cons_of_ne_nil hpre
        refine ⟨(c :: p0) :: pre', d', t', ?_, by simp, hd'⟩
        rw [heq, hs, hp]
        simp [consHead]

/-! ### The claims -/

/-- Claim C2: for every raw model response containing at least one match of
the case-insensitive delimiter pattern (the split has more than one part),
the label extractor returns the text segment immediately following the last
delimiter occurrence — the final part of the split, which follows a part
that is itself a delimiter match — with surrounding whitespace stripped. -/
theorem parse_label_after_last_delimiter (raw : List Char)
    (h : 1 < (splitOnLabel raw).length) :
    ∃ pre d t, splitOnLabel raw = pre ++ [d, t] ∧ matchesDelimHead d = true ∧
      parseLabelFromExplanation raw = pyStrip t := by
  obtain ⟨pre, d, t, hs, hpre, hd⟩ :=
    splitOnLabelF_structure raw.length raw (Nat.le_refl _) h
  refine ⟨pre, d, t, hs, hd, ?_⟩
  simp only [parseLabelFromExplanation, splitOnLabel] at h ⊢
  rw [if_pos h, hs]
  rw [List.reverse_append]
  simp only [List.reverse_cons, List.reverse_nil, List.nil_append,
    List.cons_append, List.append_assoc]
  simp [scanBack, hd]

/-- Claim C2, witness: the spec's own example, at which the extractor picks
the text after the second (last) delimiter. -/
theorem parse_label_after_last_delimiter_witness :
    1 < (splitOnLabel "...LABEL: true because X. Actually, label: false".toList).length ∧
    (∃ pre d t,
      splitOnLabel "...LABEL: true because X. Actually, label: false".toList =
        pre ++ [d, t] ∧ matchesDelimHead d = true ∧
      parseLabelFromExplanation
          "...LABEL: true because X. Actually, label: false".toList = pyStrip t) :=
  ⟨by decide, parse_label_after_last_delimiter _ (by decide)⟩

/-- Claim C4: when the delimiter pattern does not occur (the split has
exactly one part), the extractor returns the entire raw response
unchanged. -/
theorem parse_label_no_delimiter (raw : List Char)
    (h : (splitOnLabel raw).length = 1) :
    parseLabelFromExplanation raw = raw := by
  simp only [parseLabelFromExplanation, splitOnLabel] at h ⊢
  rw [if_neg (by simp [h])]

/-- Claim C4, witness: the spec's example `"it is concise"`. -/
theorem parse_label_no_delimiter_witness :
    (splitOnLabel "it is concise".toList).length = 1 ∧
    parseLabelFromExplanation "it is concise".toList = "it is concise".toList :=
  ⟨by decide, parse_label_no_delimiter _ (by decide)⟩

/-- Claim C3: whenever the snapping function maps the extracted label to
anything other than `true` or `false`, `_parse_eval_output` of both
evaluator classes fails with a `RuntimeError` carrying the full raw
response, and produces no `EvaluationResult`. -/
theorem parse_eval_output_unparseable
    (snap : List Char → List (List Char) → List Char) (resp : List Char)
    (h1 : snap (parseLabelFromExplanation resp) ["true".toList, "false".toList] ≠
      "true".toList)
    (h2 : snap (parseLabelFromExplanation resp) ["true".toList, "false".toList] ≠
      "false".toList) :
    LLMCriteriaEvaluator.parseEvalOutput snap resp =
      .error (.runtimeError ("Could not parse LLM evaluation: ".toList ++ resp)) ∧
    RelevanceEvaluator.parseEvalOutput snap resp =
      .error (.runtimeError ("Could not parse LLM evaluation: ".toList ++ resp)) := by
  constructor
  · simp only [LLMCriteriaEvaluator.parseEvalOutput]
    rw [if_neg h1, if_neg h2]
  · simp only [RelevanceEvaluator.parseEvalOutput]
    rw [if_neg h1, if_neg h2]

/-- Claim C3, witness: the response `"it is concise"` carries no label; with
the spec-modelled snapping function both parsers raise. -/
theorem parse_eval_output_unparseable_witness :
    LLMCriteriaEvaluator.parseEvalOutput snapToRail "it is concise".toList =
      .error (.runtimeError
        ("Could not parse LLM evaluation: ".toList ++ "it is concise".toList)) ∧
    RelevanceEvaluator.parseEvalOutput snapToRail "it is concise".toList =
      .error (.runtimeError
        ("Could not parse LLM evaluation: ".toList ++ "it is concise".toList)) :=
  parse_eval_output_unparseable snapToRail "it is concise".toList
    (by decide) (by decide)

/-- Claim C6: a response whose label snaps to `true` scores 1, one snapping
to `false` scores 0; in both evaluator classes the result's explanation is
the full unmodified raw response and its metadata is empty. -/
theorem parse_eval_output_true_false
    (snap : List Char → List (List Char) → List Char) (r1 r2 : List Char)
    (h1 : snap (parseLabelFromExplanation r1) ["true".toList, "false".toList] =
      "true".toList)
    (h2 : snap (parseLabelFromExplanation r2) ["true".toList, "false".toList] =
      "false".toList) :
    LLMCriteriaEvaluator.parseEvalOutput snap r1 = .ok ⟨1, r1, []⟩ ∧
    RelevanceEvaluator.parseEvalOutput snap r1 = .ok ⟨1, r1, []⟩ ∧
    LLMCriteriaEvaluator.parseEvalOutput snap r2 = .ok ⟨0, r2, []⟩ ∧
    RelevanceEvaluator.parseEvalOutput snap r2 = .ok ⟨0, r2, []⟩ := by
  refine ⟨?_, ?_, ?_, ?_⟩
  · simp only [LLMCriteriaEvaluator.parseEvalOutput]
    rw [if_pos h1]
  · simp only [RelevanceEvaluator.parseEvalOutput]
    rw [if_pos h1]
  · simp only [LLMCriteriaEvaluator.parseEvalOutput]
    rw [h2, if_neg (by decide), if_pos rfl]
  · simp only [RelevanceEvaluator.parseEvalOutput]
    rw [h2, if_neg (by decide), if_pos rfl]

/-- Claim C6, witness: concrete responses `"LABEL: true"` and
`"LABEL: false"` under the spec-modelled snapping function. -/
theorem parse_eval_output_true_false_witness :
    LLMCriteriaEvaluator.parseEvalOutput snapToRail "LABEL: true".toList =
      .ok ⟨1, "LABEL: true".toList, []⟩ ∧
    RelevanceEvaluator.parseEvalOutput snapToRail "LABEL: true".toList =
      .ok ⟨1, "LABEL: true".toList, []⟩ ∧
    LLMCriteriaEvaluator.parseEvalOutput snapToRail "LABEL: false".toList =
      .ok ⟨0, "LABEL: false".toList, []⟩ ∧
    RelevanceEvaluator.parseEvalOutput snapToRail "LABEL: false".toList =
      .ok ⟨0, "LABEL: false".toList, []⟩ :=
  parse_eval_output_true_false snapToRail "LABEL: true".toList
    "LABEL: false".toList (by decide) (by decide)

/-- Claim C5: with an absent run output, `evaluate` and `async_evaluate` of
both evaluator classes fail with the assertion-style precondition error, and
the model's generation entry points are never invoked (the invocation count
is 0) — whatever the evaluator, snapping function or example. -/
theorem evaluate_requires_output (evC : LLMCriteriaEvaluator)
    (evR : RelevanceEvaluator)
    (snap : List Char → List (List Char) → List Char)
    (ex : Example) (expRun : ExperimentRun) (h : expRun.output = none) :
    evC.evaluate snap ex expRun = (.error .assertionFailed, 0) ∧
    evC.asyncEvaluate snap ex expRun = (.error .assertionFailed, 0) ∧
    evR.evaluate snap ex expRun = (.error .assertionFailed, 0) ∧
    evR.asyncEvaluate snap ex expRun = (.error .assertionFailed, 0) := by
  have hC : evC.formatEvalTemplate expRun = .error .assertionFailed := by
    simp [LLMCriteriaEvaluator.formatEvalTemplate, h]
  have hR : evR.formatEvalTemplate ex expRun = .error .assertionFailed := by
    simp [RelevanceEvaluator.formatEvalTemplate, h]
  refine ⟨?_, ?_, ?_, ?_⟩ <;>
    simp [LLMCriteriaEvaluator.evaluate, LLMCriteriaEvaluator.asyncEvaluate,
      RelevanceEvaluator.evaluate, RelevanceEvaluator.asyncEvaluate, hC, hR]

/-- Claim C5, witness: concrete evaluators over a run with `output = None`. -/
theorem evaluate_requires_output_witness :
    (LLMCriteriaEvaluator.init ⟨fun _ => "x".toList, fun _ => "x".toList⟩
        "concise".toList "d".toList "n".toList).evaluate snapToRail
        ⟨"q".toList⟩ ⟨none⟩ = (.error .assertionFailed, 0) ∧
    (LLMCriteriaEvaluator.init ⟨fun _ => "x".toList, fun _ => "x".toList⟩
        "concise".toList "d".toList "n".toList).asyncEvaluate snapToRail
        ⟨"q".toList⟩ ⟨none⟩ = (.error .assertionFailed, 0) ∧
    (RelevanceEvaluator.init ⟨fun _ => "x".toList, fun _ => "x".toList⟩
        none none "RelevanceEvaluator".toList).evaluate snapToRail
        ⟨"q".toList⟩ ⟨none⟩ = (.error .assertionFailed, 0) ∧
    (RelevanceEvaluator.init ⟨fun _ => "x".toList, fun _ => "x".toList⟩
        none none "RelevanceEvaluator".toList).asyncEvaluate snapToRail
        ⟨"q".toList⟩ ⟨none⟩ = (.error .assertionFailed, 0) :=
  evaluate_requires_output _ _ snapToRail ⟨"q".toList⟩ ⟨none⟩ rfl

/-- Claim C9: when a model handle's synchronous and asynchronous generation
entry points agree on every prompt, `async_evaluate` returns exactly what
`evaluate` returns (the same result, or the same failure), for both
evaluator classes. -/
theorem async_evaluate_matches_evaluate (evC : LLMCriteriaEvaluator)
    (evR : RelevanceEvaluator)
    (snap : List Char → List (List Char) → List Char)
    (ex : Example) (expRun : ExperimentRun)
    (h1 : ∀ prompt, evC.model.generate prompt = evC.model.asyncGenerate prompt)
    (h2 : ∀ prompt, evR.model.generate prompt = evR.model.asyncGenerate prompt) :
    evC.evaluate snap ex expRun = evC.asyncEvaluate snap ex expRun ∧
    evR.evaluate snap ex expRun = evR.asyncEvaluate snap ex expRun := by
  constructor
  · unfold LLMCriteriaEvaluator.evaluate LLMCriteriaEvaluator.asyncEvaluate
    cases hf : evC.formatEvalTemplate expRun <;> simp [hf, h1]
  · unfold RelevanceEvaluator.evaluate RelevanceEvaluator.asyncEvaluate
    cases hf : evR.formatEvalTemplate ex expRun <;> simp [hf, h2]

/-- Claim C9, witness: concrete evaluators whose model answers every prompt
with the same fixed string on both entry points. -/
theorem async_evaluate_matches_evaluate_witness :
    (LLMCriteriaEvaluator.init
        ⟨fun _ => "LABEL: true".toList, fun _ => "LABEL: true".toList⟩
        "concise".toList "d".toList "n".toList).evaluate snapToRail
        ⟨"q".toList⟩ ⟨some ⟨"out".toList⟩⟩ =
      (LLMCriteriaEvaluator.init
        ⟨fun _ => "LABEL: true".toList, fun _ => "LABEL: true".toList⟩
        "concise".toList "d".toList "n".toList).asyncEvaluate snapToRail
        ⟨"q".toList⟩ ⟨some ⟨"out".toList⟩⟩ ∧
    (RelevanceEvaluator.init
        ⟨fun _ => "LABEL: true".toList, fun _ => "LABEL: true".toList⟩
        none none "RelevanceEvaluator".toList).evaluate snapToRail
        ⟨"q".toList⟩ ⟨some ⟨"out".toList⟩⟩ =
      (RelevanceEvaluator.init
        ⟨fun _ => "LABEL: true".toList, fun _ => "LABEL: true".toList⟩
        none none "RelevanceEvaluator".toList).asyncEvaluate snapToRail
        ⟨"q".toList⟩ ⟨some ⟨"out".toList⟩⟩ :=
  async_evaluate_matches_evaluate _ _ snapToRail _ _
    (fun _ => rfl) (fun _ => rfl)

/-- The placeholder scanner (outside a field) ignores a brace-free block. -/
theorem lpGo_append_of_braceFree :
    ∀ (x r acc : List Char), braceFree x = true →
      lpGo (x ++ r) false acc = lpGo r false acc
  | [], _, _, _ => rfl
  | ch :: xs, r, acc, h => by
    simp only [braceFree, List.all_cons, Bool.and_eq_true] at h
    obtain ⟨⟨ha, -⟩, hxs⟩ := h
    have h1 : ¬ ch = '{' := by
      intro hc
      subst hc
      simp at ha
    rw [List.cons_append]
    simp only [lpGo]
    rw [if_neg (by simp [h1])]
    exact lpGo_append_of_braceFree xs r acc hxs

/-- The placeholder scanner skips any right-nested chain of brace-free
blocks. -/
theorem lpGo_flatten :
    ∀ (chunks : List (List Char)) (tail acc : List Char),
      (∀ x ∈ chunks, braceFree x = true) →
      lpGo (chunks.foldr (fun a b => a ++ b) tail) false acc = lpGo tail false acc
  | [], _, _, _ => rfl
  | x :: xs, tail, acc, h => by
    rw [List.foldr_cons]
    rw [lpGo_append_of_braceFree x _ acc (h x (List.mem_cons_self x xs))]
    exact lpGo_flatten xs tail acc fun y hy => h y (List.mem_cons_of_mem x hy)

/-- Computed shape of `_format_base_template`: the criteria value is
substituted seven times (once inside the formatted description), the
description value once, and the `text` field is re-inserted as the literal
`"{text}"`. -/
theorem formatBaseTemplate_eq (c d : List Char) :
    formatBaseTemplate c d = .ok
      ("Determine if the following text is ".toList ++ (c ++ (". ".toList ++
        (("In this context, '".toList ++ (c ++ ("' means the text '".toList ++
        (d ++ "'. ".toList)))) ++
        ("First, explain step-by-step why you think the text is or is not ".toList ++
        (c ++ (". Then provide a single word label; 'true' if the text is ".toList ++
        (c ++ (" or 'false' if the text is not ".toList ++
        (c ++ (". Here is an example template for whether the text meets a criteria:\n\nCRITERIA: the text is '".toList ++
        (c ++ ("'\nTEXT: *the provided text to evaluate*\nEXPLANATION: *a step by step explanation of your reasoning for whether the text meets the criteria*\nLABEL: *true or false*\n\nFollow this template for the following example:\n\nCRITERIA: the text is '".toList ++
        (c ++ ("'\nTEXT: ".toList ++
        "{text}\nEXPLANATION: ".toList))))))))))))))) := rfl

/-- Claim C7 (amended): for brace-free criteria and description strings the
built template has exactly one open placeholder, named `text`, and the
build is deterministic (it is a pure function of its inputs). -/
theorem format_base_template_single_placeholder (criteria description : List Char)
    (h1 : braceFree criteria = true) (h2 : braceFree description = true) :
    (∃ t, formatBaseTemplate criteria description = .ok t ∧
      listPlaceholders t = ["text".toList]) ∧
    formatBaseTemplate criteria description = formatBaseTemplate criteria description := by
  refine ⟨⟨_, formatBaseTemplate_eq criteria description, ?_⟩, rfl⟩
  simp only [listPlaceholders, List.append_assoc]
  refine Eq.trans (b := lpGo "{text}\nEXPLANATION: ".toList false []) ?_ (by decide)
  exact lpGo_flatten
    ["Determine if the following text is ".toList, criteria, ". ".toList,
      "In this context, '".toList, criteria, "' means the text '".toList,
      description, "'. ".toList,
      "First, explain step-by-step why you think the text is or is not ".toList,
      criteria, ". Then provide a single word label; 'true' if the text is ".toList,
      criteria, " or 'false' if the text is not ".toList,
      criteria, ". Here is an example template for whether the text meets a criteria:\n\nCRITERIA: the text is '".toList,
      criteria, "'\nTEXT: *the provided text to evaluate*\nEXPLANATION: *a step by step explanation of your reasoning for whether the text meets the criteria*\nLABEL: *true or false*\n\nFollow this template for the following example:\n\nCRITERIA: the text is '".toList,
      criteria, "'\nTEXT: ".toList]
    "{text}\nEXPLANATION: ".toList []
    (by
      intro x hx
      simp only [List.mem_cons, List.not_mem_nil, or_false] at hx
      rcases hx with rfl | rfl | rfl | rfl | rfl | rfl | rfl | rfl | rfl | rfl |
        rfl | rfl | rfl | rfl | rfl | rfl | rfl | rfl | rfl
      all_goals first | exact h1 | exact h2 | decide)

/-- Claim C7 (amended), witness: the conciseness criterion's inputs. -/
theorem format_base_template_single_placeholder_witness :
    (∃ t, formatBaseTemplate "concise".toList
        "is just a few sentences and easy to follow".toList = .ok t ∧
      listPlaceholders t = ["text".toList]) ∧
    formatBaseTemplate "concise".toList
        "is just a few sentences and easy to follow".toList =
      formatBaseTemplate "concise".toList
        "is just a few sentences and easy to follow".toList :=
  format_base_template_single_placeholder _ _ (by decide) (by decide)

/-- Claim C7, counterexample: a criteria string containing a replacement
field of its own is substituted verbatim, so the built template does not
contain exactly one open placeholder named `text`. -/
theorem format_base_template_counterexample :
    ¬ ∃ t, formatBaseTemplate "{q}".toList "".toList = .ok t ∧
      listPlaceholders t = ["text".toList] := by
  rintro ⟨t, h1, h2⟩
  have e := formatBaseTemplate_eq "{q}".toList "".toList
  rw [h1] at e
  injection e with e
  rw [e] at h2
  exact absurd h2 (by decide)

/-- Claim C8: the three factory-built evaluators are constructible from a
model handle alone and then carry their default names; each template builds
successfully and contains its own criterion word; and the three templates
are pairwise distinct. -/
theorem factory_evaluators_distinct :
    (∀ m : LLMBaseModel,
      (ConcisenessEvaluator.fromModel m).name = "Conciseness".toList) ∧
    (∀ m : LLMBaseModel,
      (HelpfulnessEvaluator.fromModel m).name = "Helpfulness".toList) ∧
    (∀ m : LLMBaseModel,
      (CoherenceEvaluator.fromModel m).name = "Coherence".toList) ∧
    ConcisenessEvaluator.template = .ok (templateStrOf ConcisenessEvaluator.template) ∧
    HelpfulnessEvaluator.template = .ok (templateStrOf HelpfulnessEvaluator.template) ∧
    CoherenceEvaluator.template = .ok (templateStrOf CoherenceEvaluator.template) ∧
    containsSub "concise".toList (templateStrOf ConcisenessEvaluator.template) = true ∧
    containsSub "helpful".toList (templateStrOf HelpfulnessEvaluator.template) = true ∧
    containsSub "coherent".toList (templateStrOf CoherenceEvaluator.template) = true ∧
    templateStrOf ConcisenessEvaluator.template ≠
      templateStrOf HelpfulnessEvaluator.template ∧
    templateStrOf ConcisenessEvaluator.template ≠
      templateStrOf CoherenceEvaluator.template ∧
    templateStrOf HelpfulnessEvaluator.template ≠
      templateStrOf CoherenceEvaluator.template := by
  refine ⟨fun m => rfl, fun m => rfl, fun m => rfl, rfl, rfl, rfl,
    ?_, ?_, ?_, ?_, ?_, ?_⟩ <;> decide

/-- Claim C1 (evidence of the code bug): `RelevanceEvaluator.template` names
its fields `reference` and `submission`, so `evaluate`/`async_evaluate`,
which substitute keyword arguments `query` and `response`, raise
`KeyError('reference')` on every run with a present output — the model is
never consulted and no prompt is ever rendered. -/
theorem relevance_template_field_mismatch :
    listPlaceholders relevanceTemplate.toList =
      ["reference".toList, "submission".toList] ∧
    (RelevanceEvaluator.init ⟨fun _ => "unused".toList, fun _ => "unused".toList⟩
        none none "RelevanceEvaluator".toList).evaluate snapToRail
        ⟨"what is 2+2".toList⟩ ⟨some ⟨"4".toList⟩⟩ =
      (.error (.keyError "reference".toList), 0) ∧
    (RelevanceEvaluator.init ⟨fun _ => "unused".toList, fun _ => "unused".toList⟩
        none none "RelevanceEvaluator".toList).asyncEvaluate snapToRail
        ⟨"what is 2+2".toList⟩ ⟨some ⟨"4".toList⟩⟩ =
      (.error (.keyError "reference".toList), 0) := by
  refine ⟨by decide, rfl, rfl⟩

/-- Claim C10: the delimiter pattern matches the letter sequence `label`
embedded inside a larger word, since both `\W*` parts may match empty: an
anchored match succeeds at `label` even when a word character follows, and
on responses whose last `label` letters lie inside `labels` or `mislabeled`
(after the intended `LABEL:` line) the extractor returns the text after the
embedded occurrence, not the text after `LABEL:`. -/
theorem delimiter_matches_embedded_label (c : Char) (rest : List Char)
    (hc : isWordChar c = true) :
    tryDelimAt ('l' :: 'a' :: 'b' :: 'e' :: 'l' :: c :: rest) =
      some (['l', 'a', 'b', 'e', 'l'], c :: rest) ∧
    parseLabelFromExplanation
        "EXPLANATION: ok\nLABEL: true because the labels match".toList =
      "s match".toList ∧
    parseLabelFromExplanation "LABEL: true. This is mislabeled".toList =
      "ed".toList := by
  refine ⟨?_, by decide, by decide⟩
  have hnw : notWord c = false := by simp [notWord, hc]
  simp only [tryDelimAt]
  have htw : List.takeWhile notWord ('l' :: 'a' :: 'b' :: 'e' :: 'l' :: c :: rest) =
      [] := by
    rw [List.takeWhile_cons, if_neg (by decide)]
  have hdw : List.dropWhile notWord ('l' :: 'a' :: 'b' :: 'e' :: 'l' :: c :: rest) =
      'l' :: 'a' :: 'b' :: 'e' :: 'l' :: c :: rest := by
    rw [List.dropWhile_cons, if_neg (by decide)]
  rw [htw, hdw]
  rw [if_pos
    (show ciStartsWithLabel ('l' :: 'a' :: 'b' :: 'e' :: 'l' :: c :: rest) = true from rfl)]
  have htw2 : List.takeWhile notWord (c :: rest) = [] := by
    rw [List.takeWhile_cons, if_neg (by simp [hnw])]
  have hdw2 : List.dropWhile notWord (c :: rest) = c :: rest := by
    rw [List.dropWhile_cons, if_neg (by simp [hnw])]
  simp only [List.drop_succ_cons, List.drop_zero, List.take_succ_cons,
    List.take_zero, htw2, hdw2]
  simp

/-- Claim C10, witness: the embedded occurrence `labels` (`s` is a word
character), together with the two concrete end-to-end extractions. -/
theorem delimiter_matches_embedded_label_witness :
    tryDelimAt ('l' :: 'a' :: 'b' :: 'e' :: 'l' :: 's' :: " are confusing".toList) =
      some (['l', 'a', 'b', 'e', 'l'], 's' :: " are confusing".toList) ∧
    parseLabelFromExplanation
        "EXPLANATION: ok\nLABEL: true because the labels match".toList =
      "s match".toList ∧
    parseLabelFromExplanation "LABEL: true. This is mislabeled".toList =
      "ed".toList :=
  delimiter_matches_embedded_label 's' " are confusing".toList (by decide)

end Phoenix
